import Mathlib

/-!
Shallow embedding of the resilient subscription session of
src/pyth-common-js/src/PriceServiceConnection.ts.

The JS class PriceServiceConnection keeps a registry
priceFeedCallbacks : Map<HexString, Set<PriceFeedUpdateCallback>>
together with an optional websocket transport instance wsClient.
We model the Map as an association list that keeps JS Map insertion
order (set on an existing key updates in place, set on a fresh key
appends), the Set as a duplicate-free list in insertion order, and a
callback handle as an opaque natural number compared by identity.
Side effects observable on the wire (starting the transport, sending a
client message, closing the transport, firing the error hook, invoking
a subscriber callback) are recorded as an event trace returned next to
the updated connection state.
-/

set_option maxHeartbeats 1000000

namespace PriceService

/-- Hex-encoded price id, an opaque string key. -/
abbrev HexString := String

/-- Callback handles are opaque and compared by reference identity
(JS Set of functions); we model a handle as a natural number. -/
abbrev Callback := Nat

/-- Lowercasing of a single character, on the ASCII range used by hex
ids. -/
def lowerChar (c : Char) : Char :=
  if c.isUpper then Char.ofNat (c.toNat + 32) else c

/-- Modelled from the spec: the function removeLeading0xIfExists is
imported from src/pyth-common-js/src/utils.ts, a file that is not among
the provided sources. Spec section 3 describes the topic key as an
opaque, case-normalized string key, in the source domain a hex id with
any leading prefix stripped before use as a map key, with equality being
exact string equality after normalization. We therefore strip a leading
hex prefix and lowercase the rest, working on the character list of the
string. -/
def removeLeading0xIfExists (priceId : HexString) : HexString :=
  let cs := priceId.data
  let stripped := if cs.take 2 = ['0', 'x'] then cs.drop 2 else cs
  String.mk (stripped.map lowerChar)

/-- A JS Set of callbacks: duplicate-free list in insertion order. -/
abbrev CallbackSet := List Callback

/-- JS Set.add: appends the element when it is not already present. -/
def setAdd (s : CallbackSet) (c : Callback) : CallbackSet :=
  if c ∈ s then s else s ++ [c]

/-- JS Set.delete: removes the element. -/
def setDelete (s : CallbackSet) (c : Callback) : CallbackSet :=
  s.filter (fun x => x != c)

/-- The registry priceFeedCallbacks: a JS Map from topic id to its
subscriber set, as an association list in insertion order. -/
abbrev Registry := List (HexString × CallbackSet)

/-- JS Map.has. -/
def mapHas (m : Registry) (k : HexString) : Bool :=
  m.any (fun p => p.1 == k)

/-- JS Map.get. -/
def mapGet (m : Registry) (k : HexString) : Option CallbackSet :=
  (m.find? (fun p => p.1 == k)).map Prod.snd

/-- JS Map.set: updates an existing key in place (keeping its position)
or appends a fresh key at the end. -/
def mapSet (m : Registry) (k : HexString) (v : CallbackSet) : Registry :=
  if mapHas m k then m.map (fun p => if p.1 == k then (k, v) else p)
  else m ++ [(k, v)]

/-- JS Map.delete. -/
def mapDelete (m : Registry) (k : HexString) : Registry :=
  m.filter (fun p => p.1 != k)

/-- The ClientMessage wire record: type is the literal "subscribe" or
"unsubscribe", ids the topic list, verbose an optional flag (present on
subscribe messages, absent on unsubscribe messages). -/
structure ClientMessage where
  type : String
  ids : List HexString
  verbose : Option Bool
deriving DecidableEq, Repr

/-- Observable side effects of the session, in order of occurrence. -/
inductive Event where
  /-- A new ResilientWebSocket instance was created (startWebSocket). -/
  | startWs (instanceId : Nat)
  /-- wsClient.send of a serialized ClientMessage. -/
  | send (instanceId : Nat) (msg : ClientMessage)
  /-- wsClient.closeWebSocket was called on the instance. -/
  | closeWs (instanceId : Nat)
  /-- The error hook onWsError was invoked. -/
  | wsError
  /-- A subscriber callback was invoked with a price feed update. -/
  | invoke (cb : Callback) (feedId : HexString)
deriving DecidableEq, Repr

/-- The mutable state of a PriceServiceConnection: the registry, the
optional current transport instance (identified by a generation number)
and the next fresh generation number. The HTTP client, logger and
endpoint fields play no role in the claims; the websocket endpoint is
always defined after construction (the constructor computes it from the
mandatory endpoint argument), hence the undefined-endpoint throw in
startWebSocket is unreachable and not modelled. -/
structure Conn where
  priceFeedCallbacks : Registry
  wsClient : Option Nat
  nextWsId : Nat
  verbose : Bool
deriving DecidableEq, Repr

/-- The constructor: empty registry, no transport yet. -/
def mkConnection (verbose : Bool) : Conn :=
  { priceFeedCallbacks := [], wsClient := none, nextWsId := 0,
    verbose := verbose }

/-- startWebSocket: creates a fresh ResilientWebSocket instance and
installs it as wsClient. -/
def startWebSocket (s : Conn) : Conn × List Event :=
  ({ s with wsClient := some s.nextWsId, nextWsId := s.nextWsId + 1 },
   [Event.startWs s.nextWsId])

/-- Optional-chaining send, this.wsClient?.send(...): emits a send event
on the current instance, or silently does nothing when wsClient is
undefined. -/
def sendEvents (s : Conn) (m : ClientMessage) : List Event :=
  match s.wsClient with
  | some i => [Event.send i m]
  | none => []

/-- The registry-updating loop of subscribePriceFeedUpdates: for each id
(already normalized), if the registry lacks the id, install an empty set
and record the id as newly added; then add the callback to the id's set.
Returns the updated registry and newPriceIds in iteration order. -/
def subscribeLoop (cb : Callback) :
    Registry → List HexString → Registry × List HexString
  | reg, [] => (reg, [])
  | reg, id :: rest =>
    if mapHas reg id then
      subscribeLoop cb (mapSet reg id (setAdd ((mapGet reg id).getD []) cb)) rest
    else
      let reg1 := mapSet reg id []
      let reg2 := mapSet reg1 id (setAdd ((mapGet reg1 id).getD []) cb)
      let r := subscribeLoop cb reg2 rest
      (r.1, id :: r.2)

/-- subscribePriceFeedUpdates: lazily start the websocket, normalize the
ids, run the registry loop, then send one subscribe message carrying
exactly the newly added ids and the verbose flag. -/
def subscribePriceFeedUpdates (s : Conn) (priceIds : List HexString)
    (cb : Callback) : Conn × List Event :=
  let started := if s.wsClient = none then startWebSocket s else (s, [])
  let s1 := started.1
  let normIds := priceIds.map removeLeading0xIfExists
  let r := subscribeLoop cb s1.priceFeedCallbacks normIds
  let subscribeTy : String := "subscribe"
  let message : ClientMessage :=
    { type := subscribeTy, ids := r.2, verbose := some s1.verbose }
  let s2 := { s1 with priceFeedCallbacks := r.1 }
  (s2, started.2 ++ sendEvents s2 message)

/-- The registry-updating loop of unsubscribePriceFeedUpdates: for each
id present in the registry, remove the whole key when no callback was
given, otherwise delete the callback from the id's set and remove the
key when the set became empty; ids whose key was removed are collected
as removedPriceIds in iteration order. -/
def unsubscribeLoop (cb : Option Callback) :
    Registry → List HexString → Registry × List HexString
  | reg, [] => (reg, [])
  | reg, id :: rest =>
    if mapHas reg id then
      match cb with
      | none =>
        let r := unsubscribeLoop cb (mapDelete reg id) rest
        (r.1, id :: r.2)
      | some c =>
        let sset := setDelete ((mapGet reg id).getD []) c
        if sset.length = 0 then
          let r := unsubscribeLoop cb (mapDelete reg id) rest
          (r.1, id :: r.2)
        else
          unsubscribeLoop cb (mapSet reg id sset) rest
    else
      unsubscribeLoop cb reg rest

/-- closeWebSocket: closes and discards the transport instance and
clears the registry. -/
def closeWebSocket (s : Conn) : Conn × List Event :=
  ({ s with wsClient := none, priceFeedCallbacks := [] },
   match s.wsClient with
   | some i => [Event.closeWs i]
   | none => [])

/-- unsubscribePriceFeedUpdates: lazily start the websocket, normalize
the ids, run the registry loop, send one unsubscribe message carrying
exactly the fully removed ids, and tear the websocket down when the
registry ended up empty. -/
def unsubscribePriceFeedUpdates (s : Conn) (priceIds : List HexString)
    (cb : Option Callback) : Conn × List Event :=
  let started := if s.wsClient = none then startWebSocket s else (s, [])
  let s1 := started.1
  let normIds := priceIds.map removeLeading0xIfExists
  let r := unsubscribeLoop cb s1.priceFeedCallbacks normIds
  let unsubscribeTy : String := "unsubscribe"
  let message : ClientMessage :=
    { type := unsubscribeTy, ids := r.2, verbose := none }
  let s2 := { s1 with priceFeedCallbacks := r.1 }
  let evSend := sendEvents s2 message
  if s2.priceFeedCallbacks.length = 0 then
    let closed := closeWebSocket s2
    (closed.1, started.2 ++ evSend ++ closed.2)
  else
    (s2, started.2 ++ evSend)

/-- The onReconnect hook installed in startWebSocket: when the registry
is non-empty, send a single subscribe message listing every current
registry key (JS Map.keys() iterates in insertion order); otherwise do
nothing. The registry itself is not touched. -/
def onReconnect (s : Conn) : List Event :=
  if s.priceFeedCallbacks.length > 0 then
    let subscribeTy : String := "subscribe"
    sendEvents s
      { type := subscribeTy,
        ids := s.priceFeedCallbacks.map Prod.fst,
        verbose := some s.verbose }
  else []

/-- An inbound websocket frame, by the outcome of the two parsing steps
the onMessage handler performs: the JSON.parse of the raw text (notJson
when it throws) and, for price updates, the PriceFeed.fromJson of the
embedded payload (payloadOk false when it throws; feedId is the parsed
feed's id used for the registry lookup). -/
inductive RawFrame where
  | notJson
  | response (isError : Bool) (error : Option String)
  | priceUpdate (payloadOk : Bool) (feedId : HexString)
  | unknown
deriving DecidableEq, Repr

/-- The fan-out loop of the onMessage handler: invoke each callback of
the topic's set in iteration order. The source wraps no try/catch
around the invocation, so a callback that throws (faulty) aborts the
loop and the fault escapes the handler; the Bool records whether that
happened. -/
def invokeAll (faulty : Callback → Bool) (feedId : HexString) :
    CallbackSet → List Event × Bool
  | [] => ([], false)
  | c :: rest =>
    if faulty c then ([Event.invoke c feedId], true)
    else
      let r := invokeAll faulty feedId rest
      (Event.invoke c feedId :: r.1, r.2)

/-- The onMessage handler installed in startWebSocket: on a JSON parse
failure fire the error hook once and stop; on an error response fire the
error hook; on a price update whose payload fails to parse fire the
error hook; on a well-formed price update for a registered topic fan the
feed out to the topic's subscriber set; ignore anything else. Returns
the connection (the registry is never modified), the emitted events and
whether a callback fault escaped the handler. -/
def onMessage (faulty : Callback → Bool) (s : Conn) (frame : RawFrame) :
    Conn × List Event × Bool :=
  match frame with
  | RawFrame.notJson => (s, [Event.wsError], false)
  | RawFrame.response isError _ =>
    if isError then (s, [Event.wsError], false) else (s, [], false)
  | RawFrame.priceUpdate payloadOk feedId =>
    if payloadOk then
      if mapHas s.priceFeedCallbacks feedId then
        let r := invokeAll faulty feedId
          ((mapGet s.priceFeedCallbacks feedId).getD [])
        (s, r.1, r.2)
      else (s, [], false)
    else (s, [Event.wsError], false)
  | RawFrame.unknown => (s, [], false)

/-- Messages actually sent on the wire, extracted from an event trace. -/
def sentMessages (evs : List Event) : List ClientMessage :=
  evs.filterMap (fun e =>
    match e with
    | Event.send _ m => some m
    | _ => none)

/-- Registry well-formedness: every stored subscriber set is non-empty.
This is the registry invariant of the spec: a topic key exists iff its
subscriber set is non-empty. -/
def RegInv (reg : Registry) : Prop := ∀ p ∈ reg, p.2 ≠ []

/-! Basic lemmas about the JS Map and Set model. -/

theorem mapHas_eq_true (m : Registry) (k : HexString) :
    mapHas m k = true ↔ ∃ p ∈ m, p.1 = k := by
  simp [mapHas, List.any_eq_true, beq_iff_eq]

theorem mem_keys_iff_mapHas (m : Registry) (k : HexString) :
    k ∈ m.map Prod.fst ↔ mapHas m k = true := by
  rw [mapHas_eq_true]
  constructor
  · intro h
    rcases List.mem_map.mp h with ⟨p, hp, he⟩
    exact ⟨p, hp, he⟩
  · rintro ⟨p, hp, he⟩
    exact List.mem_map.mpr ⟨p, hp, he⟩

theorem mapHas_of_mapGet (m : Registry) (k : HexString) (v : CallbackSet)
    (h : mapGet m k = some v) : mapHas m k = true := by
  induction m with
  | nil => simp [mapGet, List.find?] at h
  | cons p t ih =>
    by_cases hp : p.1 = k
    · rw [mapHas_eq_true]
      exact ⟨p, List.mem_cons_self p t, hp⟩
    · have hp' : (p.1 == k) = false := by simpa using hp
      rw [mapGet, List.find?_cons_of_neg _ (by simp [hp'])] at h
      have ht := ih h
      rcases (mapHas_eq_true t k).mp ht with ⟨q, hq, hqk⟩
      rw [mapHas_eq_true]
      exact ⟨q, List.mem_cons_of_mem p hq, hqk⟩

theorem map_replace_of_not_has (m : Registry) (k : HexString) (v : CallbackSet)
    (h : mapHas m k = false) :
    m.map (fun p => if p.1 == k then (k, v) else p) = m := by
  induction m with
  | nil => rfl
  | cons p t ih =>
    simp only [mapHas, List.any_cons, Bool.or_eq_false_iff] at h
    have h1 : ¬ p.1 = k := by simpa using h.1
    have h2 : mapHas t k = false := by simpa [mapHas] using h.2
    simp only [List.map_cons]
    rw [ih h2]
    have hhead : (if (p.1 == k) = true then (k, v) else p) = p := by simp [h1]
    rw [hhead]

theorem mapHas_mapSet (m : Registry) (k k' : HexString) (v : CallbackSet) :
    mapHas (mapSet m k v) k' = true ↔ (k' = k ∨ mapHas m k' = true) := by
  unfold mapSet
  by_cases h : mapHas m k
  · simp only [h, if_true]
    rw [mapHas_eq_true, mapHas_eq_true]
    constructor
    · rintro ⟨p, hp, hpk⟩
      rcases List.mem_map.mp hp with ⟨q, hq, hfq⟩
      by_cases hqk : q.1 = k
      · have : (q.1 == k) = true := by simpa using hqk
        simp only [this, if_true] at hfq
        left; rw [← hpk, ← hfq]
      · have : (q.1 == k) = false := by simpa using hqk
        simp only [this] at hfq
        simp only [Bool.false_eq_true, if_false] at hfq
        right; exact ⟨q, hq, by rw [hfq]; exact hpk⟩
    · rintro (rfl | ⟨p, hp, hpk⟩)
      · rcases (mapHas_eq_true m k').mp h with ⟨q, hq, hqk⟩
        refine ⟨(k', v), List.mem_map.mpr ⟨q, hq, ?_⟩, rfl⟩
        have : (q.1 == k') = true := by simpa using hqk
        simp [this]
      · by_cases hpk' : p.1 = k
        · have hb : (p.1 == k) = true := by simpa using hpk'
          refine ⟨(k, v), List.mem_map.mpr ⟨p, hp, by simp [hb]⟩, ?_⟩
          rw [← hpk]; exact hpk'.symm
        · have hb : (p.1 == k) = false := by simpa using hpk'
          exact ⟨p, List.mem_map.mpr ⟨p, hp, by simp [hb]⟩, hpk⟩
  · simp only [h, Bool.false_eq_true, if_false]
    rw [mapHas_eq_true, mapHas_eq_true]
    constructor
    · rintro ⟨p, hp, hpk⟩
      rcases List.mem_append.mp hp with hin | hin
      · right; exact ⟨p, hin, hpk⟩
      · left; simp only [List.mem_singleton] at hin
        rw [← hpk, hin]
    · rintro (rfl | ⟨p, hp, hpk⟩)
      · exact ⟨(k', v), List.mem_append.mpr (Or.inr (List.mem_singleton.mpr rfl)), rfl⟩
      · exact ⟨p, List.mem_append.mpr (Or.inl hp), hpk⟩

theorem mapSet_of_has (m : Registry) (k : HexString) (v : CallbackSet)
    (h : mapHas m k = true) :
    mapSet m k v = m.map (fun p => if p.1 == k then (k, v) else p) := by
  unfold mapSet
  rw [if_pos h]

theorem mapSet_of_not_has (m : Registry) (k : HexString) (v : CallbackSet)
    (h : mapHas m k = false) : mapSet m k v = m ++ [(k, v)] := by
  unfold mapSet
  rw [if_neg (by simp [h])]

theorem mapGet_append_singleton_of_not_has (m : Registry) (k : HexString)
    (v : CallbackSet) (h : mapHas m k = false) :
    mapGet (m ++ [(k, v)]) k = some v := by
  induction m with
  | nil =>
    rw [List.nil_append, mapGet, List.find?_cons_of_pos _ (by simp)]
    rfl
  | cons p t ih =>
    simp only [mapHas, List.any_cons, Bool.or_eq_false_iff] at h
    have h1 : (p.1 == k) = false := h.1
    have h2 : mapHas t k = false := by simpa [mapHas] using h.2
    rw [List.cons_append, mapGet, List.find?_cons_of_neg _ (by simp [h1])]
    exact ih h2

theorem mapGet_replace_of_has (m : Registry) (k : HexString) (v : CallbackSet)
    (h : mapHas m k = true) :
    mapGet (m.map (fun p => if p.1 == k then (k, v) else p)) k = some v := by
  induction m with
  | nil => simp [mapHas] at h
  | cons p t ih =>
    by_cases hp : p.1 = k
    · have hb : (p.1 == k) = true := by simpa using hp
      simp only [List.map_cons, hb, if_true]
      rw [mapGet, List.find?_cons_of_pos _ (by simp)]
      rfl
    · have hb : (p.1 == k) = false := by simpa using hp
      have ht : mapHas t k = true := by
        simp only [mapHas, List.any_cons, hb, Bool.false_or] at h
        simpa [mapHas] using h
      simp only [List.map_cons, hb, Bool.false_eq_true, if_false]
      rw [mapGet, List.find?_cons_of_neg _ (by simp [hb])]
      exact ih ht

theorem mapGet_mapSet_self (m : Registry) (k : HexString) (v : CallbackSet) :
    mapGet (mapSet m k v) k = some v := by
  by_cases h : mapHas m k
  · rw [mapSet_of_has m k v h]
    exact mapGet_replace_of_has m k v h
  · rw [mapSet_of_not_has m k v (by simpa using h)]
    exact mapGet_append_singleton_of_not_has m k v (by simpa using h)

theorem mapGet_replace_ne (m : Registry) (k k' : HexString) (v : CallbackSet)
    (hne : k' ≠ k) :
    mapGet (m.map (fun p => if p.1 == k then (k, v) else p)) k' = mapGet m k' := by
  induction m with
  | nil => rfl
  | cons p t ih =>
    by_cases hp : p.1 = k
    · have hb : (p.1 == k) = true := by simpa using hp
      simp only [List.map_cons, hb, if_true]
      rw [mapGet, List.find?_cons_of_neg _ (by simpa using Ne.symm hne)]
      rw [mapGet, List.find?_cons_of_neg _
        (by simp only [beq_iff_eq, hp]; exact Ne.symm hne)]
      exact ih
    · have hb : (p.1 == k) = false := by simpa using hp
      simp only [List.map_cons, hb, Bool.false_eq_true, if_false]
      by_cases hp' : p.1 = k'
      · rw [mapGet, List.find?_cons_of_pos _ (by simpa using hp')]
        rw [mapGet, List.find?_cons_of_pos _ (by simpa using hp')]
      · rw [mapGet, List.find?_cons_of_neg _ (by simpa using hp')]
        rw [mapGet, List.find?_cons_of_neg _ (by simpa using hp')]
        exact ih

theorem mapGet_append_singleton_ne (m : Registry) (k k' : HexString)
    (v : CallbackSet) (hne : k' ≠ k) :
    mapGet (m ++ [(k, v)]) k' = mapGet m k' := by
  induction m with
  | nil =>
    rw [List.nil_append, mapGet, List.find?_cons_of_neg _ (by simpa using Ne.symm hne)]
    rfl
  | cons p t ih =>
    by_cases hp : p.1 = k'
    · rw [List.cons_append, mapGet, List.find?_cons_of_pos _ (by simpa using hp)]
      rw [mapGet, List.find?_cons_of_pos _ (by simpa using hp)]
    · rw [List.cons_append, mapGet, List.find?_cons_of_neg _ (by simpa using hp)]
      rw [mapGet, List.find?_cons_of_neg _ (by simpa using hp)]
      exact ih

theorem mapGet_mapSet_ne (m : Registry) (k k' : HexString) (v : CallbackSet)
    (hne : k' ≠ k) : mapGet (mapSet m k v) k' = mapGet m k' := by
  by_cases h : mapHas m k
  · rw [mapSet_of_has m k v h]
    exact mapGet_replace_ne m k k' v hne
  · rw [mapSet_of_not_has m k v (by simpa using h)]
    exact mapGet_append_singleton_ne m k k' v hne

theorem mapSet_mapSet (m : Registry) (k : HexString) (v w : CallbackSet) :
    mapSet (mapSet m k v) k w = mapSet m k w := by
  have hset : mapHas (mapSet m k v) k = true :=
    (mapHas_mapSet m k k v).mpr (Or.inl rfl)
  rw [mapSet_of_has (mapSet m k v) k w hset]
  by_cases h : mapHas m k
  · rw [mapSet_of_has m k v h, mapSet_of_has m k w h, List.map_map]
    apply List.map_congr_left
    intro p _
    by_cases hp : p.1 = k <;> simp [Function.comp, hp]
  · rw [mapSet_of_not_has m k v (by simpa using h),
        mapSet_of_not_has m k w (by simpa using h)]
    rw [List.map_append, map_replace_of_not_has m k w (by simpa using h)]
    simp

theorem mapSet_ne_nil (m : Registry) (k : HexString) (v : CallbackSet) :
    mapSet m k v ≠ [] := by
  by_cases h : mapHas m k
  · rw [mapSet_of_has m k v h]
    intro hc
    rcases List.map_eq_nil_iff.mp hc with rfl
    simp [mapHas] at h
  · rw [mapSet_of_not_has m k v (by simpa using h)]
    simp

theorem mapHas_mapDelete (m : Registry) (k k' : HexString) :
    mapHas (mapDelete m k) k' = true ↔ (k' ≠ k ∧ mapHas m k' = true) := by
  unfold mapDelete
  rw [mapHas_eq_true, mapHas_eq_true]
  constructor
  · rintro ⟨p, hp, hpk⟩
    rcases List.mem_filter.mp hp with ⟨hin, hne⟩
    refine ⟨?_, p, hin, hpk⟩
    intro hkk
    rw [hpk, hkk] at hne
    simp [bne] at hne
  · rintro ⟨hne, p, hp, hpk⟩
    refine ⟨p, List.mem_filter.mpr ⟨hp, ?_⟩, hpk⟩
    simp only [bne_iff_ne, ne_eq, hpk]
    exact hne

theorem setAdd_ne_nil (s : CallbackSet) (c : Callback) : setAdd s c ≠ [] := by
  unfold setAdd
  by_cases h : c ∈ s
  · rw [if_pos h]
    exact List.ne_nil_of_mem h
  · rw [if_neg h]
    simp

theorem setAdd_nil (c : Callback) : setAdd [] c = [c] := by
  simp [setAdd]

theorem setAdd_singleton_self (c : Callback) : setAdd [c] c = [c] := by
  simp [setAdd]

theorem RegInv_nil : RegInv [] := by
  intro p hp
  cases hp

theorem RegInv_mapSet (m : Registry) (k : HexString) (v : CallbackSet)
    (hm : RegInv m) (hv : v ≠ []) : RegInv (mapSet m k v) := by
  by_cases h : mapHas m k
  · rw [mapSet_of_has m k v h]
    intro p hp
    rcases List.mem_map.mp hp with ⟨q, hq, hfq⟩
    by_cases hqk : q.1 = k
    · have hb : (q.1 == k) = true := by simpa using hqk
      rw [← hfq]
      simpa [hb] using hv
    · have hb : (q.1 == k) = false := by simpa using hqk
      rw [← hfq]
      simpa [hb] using hm q hq
  · rw [mapSet_of_not_has m k v (by simpa using h)]
    intro p hp
    rcases List.mem_append.mp hp with hin | hin
    · exact hm p hin
    · simp only [List.mem_singleton] at hin
      rw [hin]
      exact hv

theorem RegInv_mapDelete (m : Registry) (k : HexString) (hm : RegInv m) :
    RegInv (mapDelete m k) := by
  intro p hp
  exact hm p (List.mem_filter.mp hp).1

/-! Lemmas about the subscribe and unsubscribe registry loops. -/

theorem subscribeLoop_fresh_step (cb : Callback) (reg : Registry)
    (id : HexString) (rest : List HexString) (h : mapHas reg id = false) :
    subscribeLoop cb reg (id :: rest)
      = ((subscribeLoop cb (mapSet reg id [cb]) rest).1,
         id :: (subscribeLoop cb (mapSet reg id [cb]) rest).2) := by
  rw [subscribeLoop]
  rw [if_neg (by simp [h])]
  have hget : mapGet (mapSet reg id []) id = some [] := mapGet_mapSet_self reg id []
  simp only [hget, Option.getD_some, setAdd_nil, mapSet_mapSet]

theorem subscribeLoop_present_step (cb : Callback) (reg : Registry)
    (id : HexString) (rest : List HexString) (h : mapHas reg id = true) :
    subscribeLoop cb reg (id :: rest)
      = subscribeLoop cb
          (mapSet reg id (setAdd ((mapGet reg id).getD []) cb)) rest := by
  rw [subscribeLoop, if_pos h]

theorem mapHas_eq_false_iff (m : Registry) (k : HexString) :
    mapHas m k = false ↔ ¬ mapHas m k = true := by
  cases h : mapHas m k <;> simp

theorem subscribeLoop_newIds_mem (cb : Callback) (ids : List HexString) :
    ∀ (reg : Registry) (x : HexString),
      x ∈ (subscribeLoop cb reg ids).2 ↔ x ∈ ids ∧ mapHas reg x = false := by
  induction ids with
  | nil =>
    intro reg x
    simp [subscribeLoop]
  | cons id rest ih =>
    intro reg x
    by_cases h : mapHas reg id
    · rw [subscribeLoop_present_step cb reg id rest h, ih]
      simp only [mapHas_eq_false_iff, mapHas_mapSet, List.mem_cons]
      constructor
      · rintro ⟨hx, hn⟩
        exact ⟨Or.inr hx, fun ht => hn (Or.inr ht)⟩
      · rintro ⟨rfl | hx, hn⟩
        · exact absurd h hn
        · exact ⟨hx, fun hor => hor.elim (fun hxid => hn (by rw [hxid]; exact h)) hn⟩
    · have hf : mapHas reg id = false := by simpa using h
      rw [subscribeLoop_fresh_step cb reg id rest hf, List.mem_cons, ih]
      simp only [mapHas_eq_false_iff, mapHas_mapSet, List.mem_cons]
      constructor
      · rintro (rfl | ⟨hx, hn⟩)
        · exact ⟨Or.inl rfl, h⟩
        · exact ⟨Or.inr hx, fun ht => hn (Or.inr ht)⟩
      · rintro ⟨rfl | hx, hn⟩
        · exact Or.inl rfl
        · by_cases hxid : x = id
          · exact Or.inl hxid
          · exact Or.inr ⟨hx, fun hor => hor.elim (fun e => absurd e hxid) hn⟩

theorem subscribeLoop_newIds_nodup (cb : Callback) (ids : List HexString) :
    ∀ reg : Registry, (subscribeLoop cb reg ids).2.Nodup := by
  induction ids with
  | nil =>
    intro reg
    simp [subscribeLoop]
  | cons id rest ih =>
    intro reg
    by_cases h : mapHas reg id
    · rw [subscribeLoop_present_step cb reg id rest h]
      exact ih _
    · have hf : mapHas reg id = false := by simpa using h
      rw [subscribeLoop_fresh_step cb reg id rest hf]
      refine List.nodup_cons.mpr ⟨?_, ih _⟩
      intro hmem
      have hm := (subscribeLoop_newIds_mem cb rest (mapSet reg id [cb]) id).mp hmem
      have hhas : mapHas (mapSet reg id [cb]) id = true :=
        (mapHas_mapSet reg id id [cb]).mpr (Or.inl rfl)
      rw [hm.2] at hhas
      cases hhas

theorem subscribeLoop_RegInv (cb : Callback) (ids : List HexString) :
    ∀ reg : Registry, RegInv reg → RegInv (subscribeLoop cb reg ids).1 := by
  induction ids with
  | nil =>
    intro reg h
    simpa [subscribeLoop] using h
  | cons id rest ih =>
    intro reg hreg
    by_cases h : mapHas reg id
    · rw [subscribeLoop_present_step cb reg id rest h]
      exact ih _ (RegInv_mapSet reg id _ hreg (setAdd_ne_nil _ cb))
    · have hf : mapHas reg id = false := by simpa using h
      rw [subscribeLoop_fresh_step cb reg id rest hf]
      exact ih _ (RegInv_mapSet reg id [cb] hreg (by simp))

theorem unsubscribeLoop_absent_step (cb : Option Callback) (reg : Registry)
    (id : HexString) (rest : List HexString) (h : mapHas reg id = false) :
    unsubscribeLoop cb reg (id :: rest) = unsubscribeLoop cb reg rest := by
  cases cb with
  | none => rw [unsubscribeLoop.eq_2, if_neg (by simp [h])]
  | some c => rw [unsubscribeLoop.eq_3, if_neg (by simp [h])]

theorem unsubscribeLoop_delete_all_step (reg : Registry) (id : HexString)
    (rest : List HexString) (h : mapHas reg id = true) :
    unsubscribeLoop none reg (id :: rest)
      = ((unsubscribeLoop none (mapDelete reg id) rest).1,
         id :: (unsubscribeLoop none (mapDelete reg id) rest).2) := by
  rw [unsubscribeLoop.eq_2, if_pos h]

theorem unsubscribeLoop_some_step (c : Callback) (reg : Registry)
    (id : HexString) (rest : List HexString) (h : mapHas reg id = true) :
    unsubscribeLoop (some c) reg (id :: rest)
      = (if (setDelete ((mapGet reg id).getD []) c).length = 0 then
          ((unsubscribeLoop (some c) (mapDelete reg id) rest).1,
           id :: (unsubscribeLoop (some c) (mapDelete reg id) rest).2)
        else
          unsubscribeLoop (some c)
            (mapSet reg id (setDelete ((mapGet reg id).getD []) c)) rest) := by
  rw [unsubscribeLoop.eq_3, if_pos h]

theorem unsubscribeLoop_RegInv (cb : Option Callback) (ids : List HexString) :
    ∀ reg : Registry, RegInv reg → RegInv (unsubscribeLoop cb reg ids).1 := by
  induction ids with
  | nil =>
    intro reg h
    simpa [unsubscribeLoop] using h
  | cons id rest ih =>
    intro reg hreg
    by_cases h : mapHas reg id
    · cases cb with
      | none =>
        rw [unsubscribeLoop_delete_all_step reg id rest h]
        exact ih _ (RegInv_mapDelete reg id hreg)
      | some c =>
        rw [unsubscribeLoop_some_step c reg id rest h]
        by_cases hlen : (setDelete ((mapGet reg id).getD []) c).length = 0
        · rw [if_pos hlen]
          exact ih _ (RegInv_mapDelete reg id hreg)
        · rw [if_neg hlen]
          refine ih _ (RegInv_mapSet reg id _ hreg ?_)
          intro hc
          apply hlen
          rw [hc]
          rfl
    · have hf : mapHas reg id = false := by simpa using h
      rw [unsubscribeLoop_absent_step cb reg id rest hf]
      exact ih _ hreg

theorem unsubscribeLoop_nil_reg (cb : Option Callback) (ids : List HexString) :
    unsubscribeLoop cb [] ids = ([], []) := by
  induction ids with
  | nil => rfl
  | cons id rest ih =>
    rw [unsubscribeLoop_absent_step cb [] id rest rfl]
    exact ih

/-! Shape lemmas for the two public operations: the resulting state and
the messages put on the wire, expressed through the registry loops. -/

theorem subscribe_state (s : Conn) (priceIds : List HexString) (cb : Callback) :
    (subscribePriceFeedUpdates s priceIds cb).1
      = { s with
          priceFeedCallbacks :=
            (subscribeLoop cb s.priceFeedCallbacks
              (priceIds.map removeLeading0xIfExists)).1,
          wsClient := if s.wsClient = none then some s.nextWsId else s.wsClient,
          nextWsId := if s.wsClient = none then s.nextWsId + 1 else s.nextWsId } := by
  rcases hw : s.wsClient with _ | w <;>
    simp [subscribePriceFeedUpdates, startWebSocket, hw]

theorem subscribe_sent (s : Conn) (priceIds : List HexString) (cb : Callback) :
    sentMessages (subscribePriceFeedUpdates s priceIds cb).2
      = [{ type := "subscribe",
           ids := (subscribeLoop cb s.priceFeedCallbacks
             (priceIds.map removeLeading0xIfExists)).2,
           verbose := some s.verbose }] := by
  rcases hw : s.wsClient with _ | w <;>
    simp [subscribePriceFeedUpdates, startWebSocket, sendEvents, sentMessages, hw]

theorem subscribe_start_event (s : Conn) (priceIds : List HexString)
    (cb : Callback) (hw : s.wsClient = none) :
    Event.startWs s.nextWsId ∈ (subscribePriceFeedUpdates s priceIds cb).2 := by
  simp [subscribePriceFeedUpdates, startWebSocket, hw]

theorem unsubscribe_state (s : Conn) (priceIds : List HexString)
    (cb : Option Callback) :
    (unsubscribePriceFeedUpdates s priceIds cb).1
      = (if (unsubscribeLoop cb s.priceFeedCallbacks
              (priceIds.map removeLeading0xIfExists)).1.length = 0 then
          { s with
            priceFeedCallbacks := ([] : Registry),
            wsClient := none,
            nextWsId := if s.wsClient = none then s.nextWsId + 1 else s.nextWsId }
        else
          { s with
            priceFeedCallbacks :=
              (unsubscribeLoop cb s.priceFeedCallbacks
                (priceIds.map removeLeading0xIfExists)).1,
            wsClient := if s.wsClient = none then some s.nextWsId else s.wsClient,
            nextWsId := if s.wsClient = none then s.nextWsId + 1
              else s.nextWsId }) := by
  rcases hw : s.wsClient with _ | w <;>
    by_cases hlen : (unsubscribeLoop cb s.priceFeedCallbacks
        (priceIds.map removeLeading0xIfExists)).1.length = 0 <;>
    simp [unsubscribePriceFeedUpdates, startWebSocket, closeWebSocket, hw, hlen]

theorem unsubscribe_sent (s : Conn) (priceIds : List HexString)
    (cb : Option Callback) :
    sentMessages (unsubscribePriceFeedUpdates s priceIds cb).2
      = [{ type := "unsubscribe",
           ids := (unsubscribeLoop cb s.priceFeedCallbacks
             (priceIds.map removeLeading0xIfExists)).2,
           verbose := none }] := by
  rcases hw : s.wsClient with _ | w <;>
    by_cases hlen : (unsubscribeLoop cb s.priceFeedCallbacks
        (priceIds.map removeLeading0xIfExists)).1.length = 0 <;>
    simp [unsubscribePriceFeedUpdates, startWebSocket, closeWebSocket,
      sendEvents, sentMessages, hw, hlen]

theorem unsubscribe_close_event (s : Conn) (priceIds : List HexString)
    (cb : Option Callback) (w : Nat) (hw : s.wsClient = some w)
    (hlen : (unsubscribeLoop cb s.priceFeedCallbacks
      (priceIds.map removeLeading0xIfExists)).1.length = 0) :
    Event.closeWs w ∈ (unsubscribePriceFeedUpdates s priceIds cb).2 := by
  simp [unsubscribePriceFeedUpdates, startWebSocket, closeWebSocket,
    sendEvents, hw, hlen]

/-! Lemmas about the callback fan-out. -/

theorem invokeAll_no_fault (faulty : Callback → Bool) (feedId : HexString)
    (cbs : CallbackSet) (h : ∀ x ∈ cbs, faulty x = false) :
    invokeAll faulty feedId cbs
      = (cbs.map (fun x => Event.invoke x feedId), false) := by
  induction cbs with
  | nil => rfl
  | cons c rest ih =>
    rw [invokeAll, if_neg (by simp [h c (List.mem_cons_self c rest)])]
    rw [ih (fun x hx => h x (List.mem_cons_of_mem c hx))]
    simp

theorem invokeAll_fault (faulty : Callback → Bool) (feedId : HexString)
    (pre post : List Callback) (c : Callback)
    (hpre : ∀ x ∈ pre, faulty x = false) (hc : faulty c = true) :
    invokeAll faulty feedId (pre ++ c :: post)
      = (pre.map (fun x => Event.invoke x feedId)
          ++ [Event.invoke c feedId], true) := by
  induction pre with
  | nil =>
    rw [List.nil_append, invokeAll, if_pos hc]
    simp
  | cons a t ih =>
    rw [List.cons_append, invokeAll,
      if_neg (by simp [hpre a (List.mem_cons_self a t)])]
    rw [ih (fun x hx => hpre x (List.mem_cons_of_mem a hx))]
    simp

theorem onMessage_priceUpdate_registered (faulty : Callback → Bool) (s : Conn)
    (feedId : HexString) (cbs : CallbackSet)
    (hget : mapGet s.priceFeedCallbacks feedId = some cbs) :
    onMessage faulty s (RawFrame.priceUpdate true feedId)
      = (s, (invokeAll faulty feedId cbs).1, (invokeAll faulty feedId cbs).2) := by
  have hhas := mapHas_of_mapGet _ _ _ hget
  simp [onMessage, hhas, hget]

theorem mapHas_mapDelete_self (m : Registry) (k : HexString) :
    mapHas (mapDelete m k) k = false := by
  rw [mapHas_eq_false_iff]
  intro hc
  exact ((mapHas_mapDelete m k k).mp hc).1 rfl

theorem setDelete_single (c : Callback) : setDelete [c] c = [] := by
  simp [setDelete]

theorem setDelete_pair (c1 c2 : Callback) (h : c2 ≠ c1) :
    setDelete [c1, c2] c1 = [c2] := by
  simp [setDelete, h]

theorem onMessage_preserves_conn (faulty : Callback → Bool) (s : Conn)
    (frame : RawFrame) : (onMessage faulty s frame).1 = s := by
  cases frame with
  | notJson => rfl
  | response isError err => cases isError <;> rfl
  | priceUpdate ok fid =>
    simp only [onMessage]
    split
    · split <;> rfl
    · rfl
  | unknown => rfl

theorem subscribeLoop_single_has (cb : Callback) (reg : Registry)
    (id : HexString) : mapHas (subscribeLoop cb reg [id]).1 id = true := by
  by_cases h : mapHas reg id
  · rw [subscribeLoop_present_step cb reg id [] h]
    rw [subscribeLoop]
    exact (mapHas_mapSet reg id id _).mpr (Or.inl rfl)
  · have hf : mapHas reg id = false := by simpa using h
    rw [subscribeLoop_fresh_step cb reg id [] hf]
    rw [subscribeLoop]
    exact (mapHas_mapSet reg id id [cb]).mpr (Or.inl rfl)

/-! Concrete topic ids, callbacks and states used in counterexamples and
witnesses. -/

def topicA : HexString := "a"

def topicB : HexString := "b"

def topicAA : HexString := "aa"

def topicBB : HexString := "bb"

def ex0xUpper : HexString := "0xAB12"

def exMixed : HexString := "Ab12"

def exLower : HexString := "ab12"

/-- A fault model in which exactly callback 0 throws when invoked. -/
def faultsOn0 : Callback → Bool := fun c => c == 0

/-- A running session with callbacks 0 and 1 both registered for topic
"aa". -/
def cexConn : Conn :=
  { priceFeedCallbacks := [(topicAA, [0, 1])], wsClient := some 0,
    nextWsId := 1, verbose := false }

/-- A running session in which topic "aa" has callback 5 as its only
subscriber. -/
def c4Conn : Conn :=
  { priceFeedCallbacks := [(topicAA, [5])], wsClient := some 0,
    nextWsId := 1, verbose := false }

/-- A running session subscribed to topics "aa" and "bb". -/
def c2Conn : Conn :=
  { priceFeedCallbacks := [(topicAA, [0]), (topicBB, [1])], wsClient := some 3,
    nextWsId := 4, verbose := false }

/-! Claim theorems. -/

/-- C1 counterexample: callbacks 0 and 1 are both registered for topic
"aa" and callback 0 throws when invoked. Dispatching a price update for
"aa" invokes only callback 0: callback 1, although currently registered,
never receives its invocation for that frame, and the fault escapes the
dispatch handler. This refutes the claimed per-callback fault isolation:
the source wraps no try/catch around the callback invocation loop. -/
theorem C1_counterexample :
    mapGet cexConn.priceFeedCallbacks topicAA = some [0, 1]
    ∧ (onMessage faultsOn0 cexConn (RawFrame.priceUpdate true topicAA)).2.1
        = [Event.invoke 0 topicAA]
    ∧ Event.invoke 1 topicAA
        ∉ (onMessage faultsOn0 cexConn (RawFrame.priceUpdate true topicAA)).2.1
    ∧ (onMessage faultsOn0 cexConn (RawFrame.priceUpdate true topicAA)).2.2
        = true := by
  decide

/-- C1 (amended): when a callback raises a fault during dispatch of an
update frame, the callbacks before it in the topic's set iteration order
have already been invoked and the faulting callback itself is invoked,
but the remaining callbacks are not invoked for that frame and the fault
propagates out of the dispatch handler (the registry is untouched); when
no registered callback of the topic faults, every callback of the topic
receives exactly one invocation and no fault escapes. -/
theorem C1_callback_fault_aborts_fanout (faulty : Callback → Bool) (s : Conn)
    (feedId : HexString) :
    (∀ pre post c,
        mapGet s.priceFeedCallbacks feedId = some (pre ++ c :: post) →
        (∀ x ∈ pre, faulty x = false) → faulty c = true →
        (onMessage faulty s (RawFrame.priceUpdate true feedId)).2.1
          = pre.map (fun x => Event.invoke x feedId) ++ [Event.invoke c feedId]
        ∧ (onMessage faulty s (RawFrame.priceUpdate true feedId)).2.2 = true
        ∧ (onMessage faulty s (RawFrame.priceUpdate true feedId)).1 = s)
    ∧ (∀ cbs, mapGet s.priceFeedCallbacks feedId = some cbs →
        (∀ x ∈ cbs, faulty x = false) →
        (onMessage faulty s (RawFrame.priceUpdate true feedId)).2.1
          = cbs.map (fun x => Event.invoke x feedId)
        ∧ (onMessage faulty s (RawFrame.priceUpdate true feedId)).2.2
          = false) := by
  constructor
  · intro pre post c hget hpre hc
    rw [onMessage_priceUpdate_registered faulty s feedId _ hget]
    rw [invokeAll_fault faulty feedId pre post c hpre hc]
    exact ⟨rfl, rfl, rfl⟩
  · intro cbs hget hall
    rw [onMessage_priceUpdate_registered faulty s feedId _ hget]
    rw [invokeAll_no_fault faulty feedId cbs hall]
    exact ⟨rfl, rfl⟩

theorem C1_callback_fault_aborts_fanout_witness :
    (onMessage faultsOn0 cexConn (RawFrame.priceUpdate true topicAA)).2.1
      = [Event.invoke 0 topicAA]
    ∧ (onMessage faultsOn0 cexConn (RawFrame.priceUpdate true topicAA)).2.2
      = true := by
  have h := (C1_callback_fault_aborts_fanout faultsOn0 cexConn topicAA).1
    [] [1] 0 (by decide) (by decide) (by decide)
  exact ⟨h.1, h.2.1⟩

/-- C2: when the transport's reconnect hook fires on a session whose
registry is non-empty, exactly one outbound subscribe message is sent
and its ids are exactly the current registry keys (membership in the ids
coincides with key presence, whatever order the topics were added in);
when the registry is empty, nothing is sent. -/
theorem C2_reconnect_resync (s : Conn) (w : Nat) (hw : s.wsClient = some w) :
    (s.priceFeedCallbacks ≠ [] →
      onReconnect s
        = [Event.send w
            { type := "subscribe",
              ids := s.priceFeedCallbacks.map Prod.fst,
              verbose := some s.verbose }]
      ∧ ∀ x, x ∈ s.priceFeedCallbacks.map Prod.fst
          ↔ mapHas s.priceFeedCallbacks x = true)
    ∧ (s.priceFeedCallbacks = [] → onReconnect s = []) := by
  constructor
  · intro hne
    refine ⟨?_, fun x => mem_keys_iff_mapHas _ x⟩
    unfold onReconnect
    rw [if_pos (by simpa using List.length_pos.mpr hne)]
    simp [sendEvents, hw]
  · intro he
    unfold onReconnect
    rw [he]
    simp

theorem C2_reconnect_resync_witness :
    onReconnect c2Conn
      = [Event.send 3
          { type := "subscribe",
            ids := c2Conn.priceFeedCallbacks.map Prod.fst,
            verbose := some c2Conn.verbose }] :=
  ((C2_reconnect_resync c2Conn 3 rfl).1 (by decide)).1

/-- C7: an inbound frame that fails to parse as JSON makes the dispatch
handler fire the error hook exactly once, leave the connection state (in
particular the registry) unchanged, invoke no subscriber callback, and
raise no fault out of the handler. -/
theorem C7_malformed_frame (faulty : Callback → Bool) (s : Conn) :
    onMessage faulty s RawFrame.notJson = (s, [Event.wsError], false) := rfl

/-- C10: calling unsubscribePriceFeedUpdates in the Inactive state (no
transport running, empty registry) first lazily starts a fresh websocket
transport, sends an empty unsubscribe message on it, and then - the
registry being empty after the call - immediately closes it again,
ending with no transport and an empty registry. -/
theorem C10_unsubscribe_when_inactive (s : Conn) (priceIds : List HexString)
    (cb : Option Callback) (hws : s.wsClient = none)
    (hreg : s.priceFeedCallbacks = []) :
    (unsubscribePriceFeedUpdates s priceIds cb).2
      = [Event.startWs s.nextWsId,
         Event.send s.nextWsId
           { type := "unsubscribe", ids := [], verbose := none },
         Event.closeWs s.nextWsId]
    ∧ (unsubscribePriceFeedUpdates s priceIds cb).1.wsClient = none
    ∧ (unsubscribePriceFeedUpdates s priceIds cb).1.priceFeedCallbacks
        = [] := by
  have hloop : unsubscribeLoop cb s.priceFeedCallbacks
      (priceIds.map removeLeading0xIfExists) = ([], []) := by
    rw [hreg]
    exact unsubscribeLoop_nil_reg cb _
  refine ⟨?_, ?_, ?_⟩
  · simp [unsubscribePriceFeedUpdates, startWebSocket, closeWebSocket,
      sendEvents, hws, hloop]
  · rw [unsubscribe_state]
    simp [hloop]
  · rw [unsubscribe_state]
    simp [hloop]

theorem C10_unsubscribe_when_inactive_witness :
    (unsubscribePriceFeedUpdates (mkConnection false) [topicA] none).2
      = [Event.startWs 0,
         Event.send 0 { type := "unsubscribe", ids := [], verbose := none },
         Event.closeWs 0] :=
  (C10_unsubscribe_when_inactive (mkConnection false) [topicA] none rfl rfl).1

/-- C3: every subscribe call puts exactly one subscribe message on the
wire, and its ids are exactly (without duplicates) the normalized topic
ids that were absent from the registry before the call; topics already
tracked are excluded. In particular, subscribing to [a] and then to
[a, b] on a fresh connection sends a second wire message whose ids are
exactly [b]. -/
theorem C3_incremental_subscribe :
    (∀ (s : Conn) (priceIds : List HexString) (cb : Callback),
      ∃ msg, sentMessages (subscribePriceFeedUpdates s priceIds cb).2 = [msg]
        ∧ msg.type = "subscribe"
        ∧ msg.ids.Nodup
        ∧ ∀ x, x ∈ msg.ids
            ↔ (x ∈ priceIds.map removeLeading0xIfExists
               ∧ mapHas s.priceFeedCallbacks x = false))
    ∧ sentMessages (subscribePriceFeedUpdates
          (subscribePriceFeedUpdates (mkConnection false) [topicA] 0).1
          [topicA, topicB] 1).2
        = [{ type := "subscribe", ids := [topicB], verbose := some false }] := by
  constructor
  · intro s priceIds cb
    refine ⟨_, subscribe_sent s priceIds cb, rfl, ?_, ?_⟩
    · exact subscribeLoop_newIds_nodup cb _ s.priceFeedCallbacks
    · intro x
      exact subscribeLoop_newIds_mem cb _ s.priceFeedCallbacks x
  · decide

/-- C4: the registry invariant - every topic key present in the registry
carries a non-empty subscriber set - is preserved by subscribe,
unsubscribe and close, while inbound dispatch leaves the connection
state untouched; moreover unsubscribing the last subscriber of a topic
removes the topic key entirely. -/
theorem C4_registry_invariant (s : Conn) (priceIds : List HexString)
    (cb : Callback) (ocb : Option Callback) (faulty : Callback → Bool)
    (frame : RawFrame) (T : HexString) (c : Callback)
    (hinv : RegInv s.priceFeedCallbacks) :
    RegInv (subscribePriceFeedUpdates s priceIds cb).1.priceFeedCallbacks
    ∧ RegInv (unsubscribePriceFeedUpdates s priceIds ocb).1.priceFeedCallbacks
    ∧ (onMessage faulty s frame).1 = s
    ∧ RegInv (closeWebSocket s).1.priceFeedCallbacks
    ∧ (removeLeading0xIfExists T = T →
        mapGet s.priceFeedCallbacks T = some [c] →
        mapHas (unsubscribePriceFeedUpdates s [T]
          (some c)).1.priceFeedCallbacks T = false) := by
  refine ⟨?_, ?_, onMessage_preserves_conn faulty s frame, ?_, ?_⟩
  · rw [subscribe_state]
    exact subscribeLoop_RegInv cb _ s.priceFeedCallbacks hinv
  · rw [unsubscribe_state]
    by_cases hlen : (unsubscribeLoop ocb s.priceFeedCallbacks
        (priceIds.map removeLeading0xIfExists)).1.length = 0
    · rw [if_pos hlen]
      exact RegInv_nil
    · rw [if_neg hlen]
      exact unsubscribeLoop_RegInv ocb _ s.priceFeedCallbacks hinv
  · exact RegInv_nil
  · intro hT hget
    have hmap : [T].map removeLeading0xIfExists = [T] := by simp [hT]
    have hloop : unsubscribeLoop (some c) s.priceFeedCallbacks [T]
        = (mapDelete s.priceFeedCallbacks T, [T]) := by
      rw [unsubscribeLoop_some_step c s.priceFeedCallbacks T []
        (mapHas_of_mapGet _ _ _ hget), hget]
      simp [setDelete_single, unsubscribeLoop]
    rw [unsubscribe_state, hmap, hloop]
    by_cases hlen : (mapDelete s.priceFeedCallbacks T).length = 0
    · rw [if_pos (by simpa using hlen)]
      rfl
    · rw [if_neg (by simpa using hlen)]
      exact mapHas_mapDelete_self s.priceFeedCallbacks T

theorem C4_registry_invariant_witness :
    mapHas (unsubscribePriceFeedUpdates c4Conn [topicAA]
      (some 5)).1.priceFeedCallbacks topicAA = false := by
  have h := C4_registry_invariant c4Conn [topicAA] 5 (some 5) faultsOn0
    RawFrame.unknown topicAA 5 (by unfold RegInv; decide)
  exact h.2.2.2.2 (by decide) (by decide)

/-- C5: for a topic T whose subscriber set holds exactly the two
distinct callbacks c1 and c2, unsubscribing T with c1 leaves T in the
registry and sends an unsubscribe message with empty ids (so T does not
appear in it); then unsubscribing T with c2 removes T from the registry
and sends an unsubscribe message whose ids are exactly [T]. -/
theorem C5_partial_unsubscribe (s : Conn) (T : HexString) (c1 c2 : Callback)
    (hT : removeLeading0xIfExists T = T) (hne : c1 ≠ c2)
    (hget : mapGet s.priceFeedCallbacks T = some [c1, c2]) :
    mapHas (unsubscribePriceFeedUpdates s [T]
        (some c1)).1.priceFeedCallbacks T = true
    ∧ sentMessages (unsubscribePriceFeedUpdates s [T] (some c1)).2
        = [{ type := "unsubscribe", ids := [], verbose := none }]
    ∧ mapHas (unsubscribePriceFeedUpdates
          (unsubscribePriceFeedUpdates s [T] (some c1)).1 [T]
          (some c2)).1.priceFeedCallbacks T = false
    ∧ sentMessages (unsubscribePriceFeedUpdates
          (unsubscribePriceFeedUpdates s [T] (some c1)).1 [T] (some c2)).2
        = [{ type := "unsubscribe", ids := [T], verbose := none }] := by
  have hmap : [T].map removeLeading0xIfExists = [T] := by simp [hT]
  have hhas1 : mapHas s.priceFeedCallbacks T = true :=
    mapHas_of_mapGet _ _ _ hget
  have hloop1 : unsubscribeLoop (some c1) s.priceFeedCallbacks [T]
      = (mapSet s.priceFeedCallbacks T [c2], []) := by
    rw [unsubscribeLoop_some_step c1 s.priceFeedCallbacks T [] hhas1, hget]
    simp only [Option.getD_some, setDelete_pair c1 c2 (Ne.symm hne)]
    rw [if_neg (by simp)]
    rw [unsubscribeLoop]
  have hlen1 : ¬ (mapSet s.priceFeedCallbacks T [c2]).length = 0 := by
    rw [List.length_eq_zero]
    exact mapSet_ne_nil s.priceFeedCallbacks T [c2]
  have hstate1 : (unsubscribePriceFeedUpdates s [T] (some c1)).1
      = { s with
          priceFeedCallbacks := mapSet s.priceFeedCallbacks T [c2],
          wsClient := if s.wsClient = none then some s.nextWsId else s.wsClient,
          nextWsId := if s.wsClient = none then s.nextWsId + 1
            else s.nextWsId } := by
    rw [unsubscribe_state, hmap, hloop1, if_neg hlen1]
  have hget2 : mapGet (unsubscribePriceFeedUpdates s [T]
      (some c1)).1.priceFeedCallbacks T = some [c2] := by
    rw [hstate1]
    exact mapGet_mapSet_self s.priceFeedCallbacks T [c2]
  have hhas2 : mapHas (unsubscribePriceFeedUpdates s [T]
      (some c1)).1.priceFeedCallbacks T = true :=
    mapHas_of_mapGet _ _ _ hget2
  have hloop2 : unsubscribeLoop (some c2)
      (unsubscribePriceFeedUpdates s [T] (some c1)).1.priceFeedCallbacks [T]
      = (mapDelete (unsubscribePriceFeedUpdates s [T]
          (some c1)).1.priceFeedCallbacks T, [T]) := by
    rw [unsubscribeLoop_some_step c2 _ T [] hhas2, hget2]
    simp only [Option.getD_some, setDelete_single]
    rw [if_pos (by simp)]
    rw [unsubscribeLoop]
  refine ⟨?_, ?_, ?_, ?_⟩
  · rw [hstate1]
    exact (mapHas_mapSet s.priceFeedCallbacks T T [c2]).mpr (Or.inl rfl)
  · have h2 := unsubscribe_sent s [T] (some c1)
    rw [hmap, hloop1] at h2
    exact h2
  · rw [unsubscribe_state, hmap, hloop2]
    by_cases hlen : (mapDelete (unsubscribePriceFeedUpdates s [T]
        (some c1)).1.priceFeedCallbacks T).length = 0
    · rw [if_pos (by simpa using hlen)]
      rfl
    · rw [if_neg (by simpa using hlen)]
      exact mapHas_mapDelete_self _ T
  · have h4 := unsubscribe_sent
      (unsubscribePriceFeedUpdates s [T] (some c1)).1 [T] (some c2)
    rw [hmap, hloop2] at h4
    exact h4

theorem C5_partial_unsubscribe_witness :
    mapHas (unsubscribePriceFeedUpdates cexConn [topicAA]
      (some 0)).1.priceFeedCallbacks topicAA = true :=
  (C5_partial_unsubscribe cexConn topicAA 0 1 (by decide) (by decide)
    (by decide)).1

/-- C6: an unsubscribe call on a running transport that empties the
registry tears the transport down (the instance is closed and the
session keeps no client); a subsequent subscribe call starts a fresh
transport instance, distinct from the closed one, rather than reusing
it. -/
theorem C6_auto_teardown (s : Conn) (w : Nat) (priceIds : List HexString)
    (cb : Option Callback) (ids2 : List HexString) (cb2 : Callback)
    (hw : s.wsClient = some w) (hfresh : w < s.nextWsId)
    (hempty : (unsubscribePriceFeedUpdates s priceIds
      cb).1.priceFeedCallbacks = []) :
    (unsubscribePriceFeedUpdates s priceIds cb).1.wsClient = none
    ∧ Event.closeWs w ∈ (unsubscribePriceFeedUpdates s priceIds cb).2
    ∧ ∃ w', w' ≠ w
        ∧ (subscribePriceFeedUpdates (unsubscribePriceFeedUpdates s priceIds
            cb).1 ids2 cb2).1.wsClient = some w'
        ∧ Event.startWs w' ∈ (subscribePriceFeedUpdates
            (unsubscribePriceFeedUpdates s priceIds cb).1 ids2 cb2).2 := by
  have hlen : (unsubscribeLoop cb s.priceFeedCallbacks
      (priceIds.map removeLeading0xIfExists)).1.length = 0 := by
    by_contra hlen
    rw [unsubscribe_state, if_neg hlen] at hempty
    simp only at hempty
    rw [hempty] at hlen
    exact hlen rfl
  have hstate : (unsubscribePriceFeedUpdates s priceIds cb).1
      = { s with
          priceFeedCallbacks := ([] : Registry),
          wsClient := none,
          nextWsId := if s.wsClient = none then s.nextWsId + 1
            else s.nextWsId } := by
    rw [unsubscribe_state, if_pos hlen]
  refine ⟨by rw [hstate], unsubscribe_close_event s priceIds cb w hw hlen,
    s.nextWsId, ne_of_gt hfresh, ?_, ?_⟩
  · rw [hstate, subscribe_state]
    simp [hw]
  · rw [hstate]
    have hmem := subscribe_start_event
      { s with
        priceFeedCallbacks := ([] : Registry),
        wsClient := none,
        nextWsId := if s.wsClient = none then s.nextWsId + 1 else s.nextWsId }
      ids2 cb2 rfl
    simpa [hw] using hmem

theorem C6_auto_teardown_witness :
    (unsubscribePriceFeedUpdates c4Conn [topicAA] none).1.wsClient = none :=
  (C6_auto_teardown c4Conn 0 [topicAA] none [topicBB] 7 rfl (by decide)
    (by decide)).1

/-- A fault model in which no callback ever throws. -/
def noFaults : Callback → Bool := fun _ => false

/-- C8: subscribing the same callback value to the same topic twice
leaves the topic's subscriber set with a single entry for that callback
(the JS Set deduplicates by reference identity), so a later update frame
for that topic invokes the callback exactly once. -/
theorem C8_registry_dedup (s : Conn) (T : HexString) (cb : Callback)
    (faulty : Callback → Bool) (hT : removeLeading0xIfExists T = T)
    (hfresh : mapHas s.priceFeedCallbacks T = false)
    (hok : faulty cb = false) :
    mapGet (subscribePriceFeedUpdates
        (subscribePriceFeedUpdates s [T] cb).1 [T] cb).1.priceFeedCallbacks T
      = some [cb]
    ∧ (onMessage faulty (subscribePriceFeedUpdates
          (subscribePriceFeedUpdates s [T] cb).1 [T] cb).1
        (RawFrame.priceUpdate true T)).2.1
      = [Event.invoke cb T] := by
  have hmap : [T].map removeLeading0xIfExists = [T] := by simp [hT]
  have hloop1 : subscribeLoop cb s.priceFeedCallbacks [T]
      = (mapSet s.priceFeedCallbacks T [cb], [T]) := by
    rw [subscribeLoop_fresh_step cb s.priceFeedCallbacks T [] hfresh]
    rw [subscribeLoop]
  have hstate1 : (subscribePriceFeedUpdates s [T] cb).1
      = { s with
          priceFeedCallbacks := mapSet s.priceFeedCallbacks T [cb],
          wsClient := if s.wsClient = none then some s.nextWsId else s.wsClient,
          nextWsId := if s.wsClient = none then s.nextWsId + 1
            else s.nextWsId } := by
    rw [subscribe_state, hmap, hloop1]
  have hget1 : mapGet (subscribePriceFeedUpdates s [T]
      cb).1.priceFeedCallbacks T = some [cb] := by
    rw [hstate1]
    exact mapGet_mapSet_self s.priceFeedCallbacks T [cb]
  have hhas1 : mapHas (subscribePriceFeedUpdates s [T]
      cb).1.priceFeedCallbacks T = true := mapHas_of_mapGet _ _ _ hget1
  have hloop2 : subscribeLoop cb (subscribePriceFeedUpdates s [T]
      cb).1.priceFeedCallbacks [T]
      = (mapSet (subscribePriceFeedUpdates s [T] cb).1.priceFeedCallbacks T
          [cb], []) := by
    rw [subscribeLoop_present_step cb _ T [] hhas1, hget1]
    simp only [Option.getD_some, setAdd_singleton_self]
    rw [subscribeLoop]
  have hgetFinal : mapGet (subscribePriceFeedUpdates
      (subscribePriceFeedUpdates s [T] cb).1 [T]
      cb).1.priceFeedCallbacks T = some [cb] := by
    rw [subscribe_state, hmap, hloop2]
    exact mapGet_mapSet_self _ T [cb]
  refine ⟨hgetFinal, ?_⟩
  rw [onMessage_priceUpdate_registered faulty _ T [cb] hgetFinal]
  rw [invokeAll_no_fault faulty T [cb] (by simpa using hok)]
  rfl

theorem C8_registry_dedup_witness :
    mapGet (subscribePriceFeedUpdates
        (subscribePriceFeedUpdates (mkConnection false) [topicA] 0).1
        [topicA] 0).1.priceFeedCallbacks topicA = some [0] :=
  (C8_registry_dedup (mkConnection false) topicA 0 noFaults (by decide)
    (by decide) rfl).1

/-- C9: topic ids are normalized (leading hex prefix stripped, case
lowered, as the spec describes the key for the utils helper that is not
among the provided sources) before every registry access, so subscribing
with one spelling of an id and fully unsubscribing with another spelling
of the same id acts on the same registry key, leaving the registry
without that topic; concretely the spellings 0xAB12 and Ab12 both
normalize to the key ab12. -/
theorem C9_normalized_topic_keys (s : Conn) (a b : HexString) (cb : Callback)
    (hnorm : removeLeading0xIfExists a = removeLeading0xIfExists b) :
    mapHas (subscribePriceFeedUpdates s [a] cb).1.priceFeedCallbacks
        (removeLeading0xIfExists b) = true
    ∧ mapHas (unsubscribePriceFeedUpdates
          (subscribePriceFeedUpdates s [a] cb).1 [b]
          none).1.priceFeedCallbacks (removeLeading0xIfExists b) = false
    ∧ removeLeading0xIfExists ex0xUpper = exLower
    ∧ removeLeading0xIfExists exMixed = exLower := by
  have hhas1 : mapHas (subscribePriceFeedUpdates s [a]
      cb).1.priceFeedCallbacks (removeLeading0xIfExists b) = true := by
    rw [subscribe_state]
    show mapHas (subscribeLoop cb s.priceFeedCallbacks
      [removeLeading0xIfExists a]).1 (removeLeading0xIfExists b) = true
    rw [← hnorm]
    exact subscribeLoop_single_has cb s.priceFeedCallbacks _
  refine ⟨hhas1, ?_, by decide, by decide⟩
  have hloop : unsubscribeLoop none (subscribePriceFeedUpdates s [a]
      cb).1.priceFeedCallbacks [removeLeading0xIfExists b]
      = (mapDelete (subscribePriceFeedUpdates s [a]
          cb).1.priceFeedCallbacks (removeLeading0xIfExists b),
         [removeLeading0xIfExists b]) := by
    rw [unsubscribeLoop_delete_all_step _ _ _ hhas1]
    rw [unsubscribeLoop]
  rw [unsubscribe_state]
  simp only [List.map_cons, List.map_nil]
  rw [hloop]
  by_cases hlen : (mapDelete (subscribePriceFeedUpdates s [a]
      cb).1.priceFeedCallbacks (removeLeading0xIfExists b)).length = 0
  · rw [if_pos (by simpa using hlen)]
    rfl
  · rw [if_neg (by simpa using hlen)]
    exact mapHas_mapDelete_self _ _

theorem C9_normalized_topic_keys_witness :
    mapHas (unsubscribePriceFeedUpdates
        (subscribePriceFeedUpdates (mkConnection false) [ex0xUpper] 0).1
        [exMixed] none).1.priceFeedCallbacks
      (removeLeading0xIfExists exMixed) = false :=
  (C9_normalized_topic_keys (mkConnection false) ex0xUpper exMixed 0
    (by decide)).2.1

end PriceService
